import Mathlib

/-!
Shallow embedding of the GIF Duel reducer, pool cache and pairing helpers
from `src/GifVote.tsx`, together with proofs of the specified properties.

Modelling conventions:
* JavaScript `number` fields that hold integers (score cells, `round`) are
  modelled as `Int`; `Math.max` clamps are kept explicit.
* `Date.now()` is an external input, passed to the reducer as `now`.
* `Math.random()` is an external entropy stream `rand : Nat → Nat`; each
  call to `randomInt(0, len)` consumes one draw and reduces it modulo the
  range.  The `while (j === i)` redraw loop of `pickTwoDistinct` is given
  explicit fuel, since its termination in the source is only probabilistic.
* `crypto.randomUUID()` is an external stream `uuids : Nat → String`.
* The network fetch is an external collaborator, represented by a
  `FetchOutcome` value (non-ok HTTP response, or a JSON `data` array).
* The `Map` used for the pool cache is an insertion-ordered association
  list with JavaScript `Map.set` semantics (update in place or append).
-/

namespace GifDuel

/-- The `VoteType` union type: `"like" | "funny"`. -/
inductive VoteType where
  | like
  | funny
deriving DecidableEq

/-- The `Side` union type: `"left" | "right"`. -/
inductive Side where
  | left
  | right
deriving DecidableEq

/-- The `GifItem` record. -/
structure GifItem where
  id : String
  title : String
  displayUrl : String
deriving DecidableEq

/-- The `VoteRecord` record pushed onto `history` by a vote. -/
structure VoteRecord where
  round : Int
  theme : String
  voteType : VoteType
  winnerSide : Side
  leftId : String
  rightId : String
  ts : Nat
deriving DecidableEq

/-- One `{ left, right }` pair of score counters. -/
structure SideScore where
  left : Int
  right : Int
deriving DecidableEq

/-- The `Score` record: counters per vote category per side. -/
structure Score where
  like : SideScore
  funny : SideScore
deriving DecidableEq

/-- Read one side's counter. -/
def SideScore.get (p : SideScore) : Side → Int
  | .left => p.left
  | .right => p.right

/-- Update one side's counter in place (the `nextScore.like[side] += …` pattern). -/
def SideScore.modify (p : SideScore) (sd : Side) (f : Int → Int) : SideScore :=
  match sd with
  | .left => { p with left := f p.left }
  | .right => { p with right := f p.right }

/-- Read the score cell for a vote type and side. -/
def Score.get (sc : Score) (t : VoteType) (sd : Side) : Int :=
  match t with
  | .like => sc.like.get sd
  | .funny => sc.funny.get sd

/-- The score update performed by the `VOTE` case: copy both rows, then add 1
to the single `(voteType, winnerSide)` cell. -/
def Score.bump (sc : Score) (t : VoteType) (sd : Side) : Score :=
  if t = .like then { sc with like := sc.like.modify sd (· + 1) }
  else { sc with funny := sc.funny.modify sd (· + 1) }

/-- The score update performed by the `UNDO_LAST_VOTE` case: copy both rows,
then replace the matching cell by `Math.max(0, cell - 1)`. -/
def Score.undoBump (sc : Score) (t : VoteType) (sd : Side) : Score :=
  if t = .like then { sc with like := sc.like.modify sd (fun x => max 0 (x - 1)) }
  else { sc with funny := sc.funny.modify sd (fun x => max 0 (x - 1)) }

/-- The `GameState` record held by the reducer. -/
structure GameState where
  theme : String
  round : Int
  leftGif : Option GifItem
  rightGif : Option GifItem
  poolCount : Nat
  score : Score
  history : List VoteRecord
  isLoading : Bool
  error : Option String
deriving DecidableEq

/-- The reducer's `Action` union. -/
inductive Action where
  | SET_THEME (theme : String)
  | LOAD_PAIR_START
  | LOAD_PAIR_SUCCESS (leftGif rightGif : GifItem) (poolCount : Nat)
  | LOAD_PAIR_ERROR (error : String)
  | VOTE (voteType : VoteType) (winnerSide : Side)
  | UNDO_LAST_VOTE
  | RESET_RUN
deriving DecidableEq

/-- `initialState` from the source. -/
def initialState : GameState :=
  { theme := "cats"
    round := 1
    leftGif := none
    rightGif := none
    poolCount := 0
    score := { like := { left := 0, right := 0 }, funny := { left := 0, right := 0 } }
    history := []
    isLoading := false
    error := none }

/-- `gameReducer` from the source.  `now` models the `Date.now()` call made
while building the `VOTE` record. -/
def gameReducer (now : Nat) (state : GameState) (action : Action) : GameState :=
  match action with
  | .SET_THEME theme =>
      { state with
        theme := theme
        round := 1
        leftGif := none
        rightGif := none
        poolCount := 0
        score := { like := { left := 0, right := 0 }, funny := { left := 0, right := 0 } }
        history := []
        error := none }
  | .LOAD_PAIR_START =>
      { state with isLoading := true, error := none }
  | .LOAD_PAIR_SUCCESS leftGif rightGif poolCount =>
      { state with
        isLoading := false
        error := none
        leftGif := some leftGif
        rightGif := some rightGif
        poolCount := poolCount }
  | .LOAD_PAIR_ERROR e =>
      { state with isLoading := false, error := some e }
  | .VOTE voteType winnerSide =>
      match state.leftGif, state.rightGif with
      | some l, some r =>
          let nextScore := state.score.bump voteType winnerSide
          let record : VoteRecord :=
            { round := state.round
              theme := state.theme
              voteType := voteType
              winnerSide := winnerSide
              leftId := l.id
              rightId := r.id
              ts := now }
          { state with
            score := nextScore
            history := record :: state.history
            round := state.round + 1 }
      | _, _ => state
  | .UNDO_LAST_VOTE =>
      match state.history with
      | [] => state
      | last :: rest =>
          let nextScore := state.score.undoBump last.voteType last.winnerSide
          { state with
            score := nextScore
            history := rest
            round := max 1 (state.round - 1) }
  | .RESET_RUN =>
      { state with
        round := 1
        leftGif := none
        rightGif := none
        poolCount := 0
        score := { like := { left := 0, right := 0 }, funny := { left := 0, right := 0 } }
        history := []
        error := none }

/-- JavaScript `a || b` on strings: the empty string is falsy. -/
def jsOr (a b : String) : String :=
  if a = "" then b else a

/-- JavaScript `s.trim()`: strip leading and trailing whitespace. -/
def jsTrim (s : String) : String :=
  ⟨((s.data.dropWhile Char.isWhitespace).reverse.dropWhile Char.isWhitespace).reverse⟩

/-- JavaScript `s.toLowerCase()`: lowercase every character. -/
def jsToLower (s : String) : String :=
  ⟨s.data.map Char.toLower⟩

/-- The `setTheme` helper: dispatches `SET_THEME` with `theme.trim() || "cats"`. -/
def setTheme (now : Nat) (state : GameState) (theme : String) : GameState :=
  gameReducer now state (.SET_THEME (jsOr (jsTrim theme) "cats"))

/-- Apply a sequence of dispatched actions, each with its own `Date.now()` value. -/
def applyTrace (s : GameState) (tr : List (Nat × Action)) : GameState :=
  tr.foldl (fun st p => gameReducer p.1 st p.2) s

/-- Number of history records matching a vote type and winner side. -/
def countVotes (h : List VoteRecord) (t : VoteType) (sd : Side) : Nat :=
  (h.filter (fun r => decide (r.voteType = t ∧ r.winnerSide = sd))).length

/-- States the run can start from: the module's `initialState`, or any state
just produced by a `SET_THEME` or `RESET_RUN` action. -/
def InitLike (s : GameState) : Prop :=
  s = initialState ∨
    (∃ now s0 t, s = gameReducer now s0 (.SET_THEME t)) ∨
    (∃ now s0, s = gameReducer now s0 .RESET_RUN)

/-- Each score cell counts the matching votes still present in history. -/
def ScoreInv (s : GameState) : Prop :=
  ∀ t sd, s.score.get t sd = (countVotes s.history t sd : Int)

/-- The `round` fields of the history records, read newest first, are
`n, n - 1, n - 2, …`. -/
def roundsFrom : List VoteRecord → Int → Prop
  | [], _ => True
  | r :: rest, n => r.round = n ∧ roundsFrom rest (n - 1)

/-- Round bookkeeping invariant: `round` is one more than the number of
recorded votes, and history rounds count down from that number. -/
def RoundInv (s : GameState) : Prop :=
  s.round = (s.history.length : Int) + 1 ∧ roundsFrom s.history (s.history.length : Int)

/-- One raw GIPHY record, as far as `normalizeGif` inspects it.  Optional
JSON fields that are read with `||` (the image URLs) are strings where the
empty string also stands for an absent field, since both are falsy; fields
read with `??` (`id`, `title`) distinguish absence as `none`. -/
structure RawGif where
  id : Option String
  title : Option String
  fixedWidthUrl : String
  downsizedUrl : String
  originalUrl : String
deriving DecidableEq

/-- `normalizeGif` from the source; `uuid` models the `crypto.randomUUID()`
fallback used when the record has no id. -/
def normalizeGif (uuid : String) (raw : RawGif) : GifItem :=
  let displayUrl := jsOr raw.fixedWidthUrl (jsOr raw.downsizedUrl raw.originalUrl)
  { id := raw.id.getD uuid
    title := raw.title.getD "Untitled"
    displayUrl := displayUrl }

/-- The `data.map(normalizeGif)` step: normalize each raw record in order,
threading the index of the next `crypto.randomUUID()` draw. -/
def normalizeAll (uuids : Nat → String) : Nat → List RawGif → List GifItem
  | _, [] => []
  | i, raw :: rest => normalizeGif (uuids i) raw :: normalizeAll uuids (i + 1) rest

/-- What the external fetch collaborator did: a non-ok HTTP response, or an
ok response whose JSON `data` array held the given raw records (a missing or
non-array `data` is the empty list). -/
inductive FetchOutcome where
  | httpFail (status : Nat) (statusText : String)
  | httpOk (data : List RawGif)
deriving DecidableEq

/-- `fetchPool` from the source: fails on a missing API key or a non-ok
response, normalizes the raw records, keeps those with a truthy
`displayUrl`, and fails unless at least 2 remain. -/
def fetchPool (apiKey : String) (uuids : Nat → String) (outcome : FetchOutcome)
    (theme : String) : Except String (List GifItem) :=
  if apiKey = "" then
    .error "Missing GIPHY API key. Set VITE_GIPHY_API_KEY or REACT_APP_GIPHY_API_KEY."
  else
    match outcome with
    | .httpFail status statusText =>
        .error ("GIPHY error: " ++ toString status ++ " " ++ statusText)
    | .httpOk data =>
        let normalized :=
          (normalizeAll uuids 0 data).filter (fun g => g.displayUrl != "")
        if normalized.length < 2 then
          .error "Not enough GIF results for that theme. Try another theme."
        else
          .ok normalized

/-- The pool cache: an insertion-ordered `Map` from key to GIF list. -/
abbrev PoolCache := List (String × List GifItem)

/-- `Map.get` on the pool cache. -/
def cacheGet (cache : PoolCache) (k : String) : Option (List GifItem) :=
  match cache with
  | [] => none
  | (k1, v1) :: rest => if k1 = k then some v1 else cacheGet rest k

/-- `Map.set` on the pool cache: update an existing key in place, else append. -/
def cacheSet (cache : PoolCache) (k : String) (v : List GifItem) : PoolCache :=
  match cache with
  | [] => [(k, v)]
  | (k1, v1) :: rest =>
      if k1 = k then (k, v) :: rest else (k1, v1) :: cacheSet rest k v

/-- The cache key built by `ensurePool`: trimmed, lowercased theme joined
with the rating. -/
def poolKey (theme rating : String) : String :=
  jsToLower (jsTrim theme) ++ "|" ++ rating

/-- The fetch-and-cache path of `ensurePool`: on success store the fresh
list under the key; on failure leave the cache untouched. -/
def fetchAndStore (cache : PoolCache) (key : String) (apiKey : String)
    (uuids : Nat → String) (outcome : FetchOutcome) (theme : String) :
    Except String (List GifItem) × PoolCache :=
  match fetchPool apiKey uuids outcome theme with
  | .error e => (.error e, cache)
  | .ok fresh => (.ok fresh, cacheSet cache key fresh)

/-- `ensurePool` from the source: reuse a cached entry holding at least 2
items, otherwise fetch and cache. -/
def ensurePool (cache : PoolCache) (rating apiKey : String) (uuids : Nat → String)
    (outcome : FetchOutcome) (theme : String) :
    Except String (List GifItem) × PoolCache :=
  let key := poolKey theme rating
  match cacheGet cache key with
  | some cached =>
      if 2 ≤ cached.length then (.ok cached, cache)
      else fetchAndStore cache key apiKey uuids outcome theme
  | none => fetchAndStore cache key apiKey uuids outcome theme

/-- `randomInt(min, max)` from the source (inclusive min, exclusive max).
`Math.random()` is modelled by an external entropy draw, reduced into the
range; for `min < max` the result lies in `[min, max)`. -/
def randomInt (entropy : Nat) (lo hi : Nat) : Nat :=
  lo + entropy % (hi - lo)

/-- The `while (j === i) j = randomInt(0, len)` redraw loop of
`pickTwoDistinct`: take draws `k, k + 1, …` from the entropy stream until
one lands on an index different from `i`, giving up when the fuel runs out
(the source loops indefinitely; termination is only probabilistic). -/
def redraw (rand : Nat → Nat) (len i : Nat) : Nat → Nat → Option Nat
  | _, 0 => none
  | k, fuel + 1 =>
      let j := randomInt (rand k) 0 len
      if j = i then redraw rand len i (k + 1) fuel else some j

/-- `pickTwoDistinct` from the source: `none` below 2 elements, otherwise
two elements drawn at distinct random indices. -/
def pickTwoDistinct {α : Type} (rand : Nat → Nat) (fuel : Nat) (arr : List α) :
    Option (α × α) :=
  if arr.length < 2 then none
  else
    let i := randomInt (rand 0) 0 arr.length
    match redraw rand arr.length i 1 fuel with
    | none => none
    | some j =>
        match arr.get? i, arr.get? j with
        | some a, some b => some (a, b)
        | _, _ => none

/-- `loadNextPair` from the source: dispatch `LOAD_PAIR_START`, then run the
try-block (empty-theme check, `ensurePool`, `pickTwoDistinct`) and dispatch
`LOAD_PAIR_SUCCESS` or `LOAD_PAIR_ERROR`.  Returns the final state together
with the pool cache. -/
def loadNextPair (now : Nat) (rating apiKey : String) (uuids : Nat → String)
    (outcome : FetchOutcome) (rand : Nat → Nat) (fuel : Nat)
    (state : GameState) (cache : PoolCache) : GameState × PoolCache :=
  let s1 := gameReducer now state .LOAD_PAIR_START
  let theme := jsTrim state.theme
  if theme = "" then
    (gameReducer now s1 (.LOAD_PAIR_ERROR "Theme is empty. Type something."), cache)
  else
    match ensurePool cache rating apiKey uuids outcome theme with
    | (.error e, cache2) => (gameReducer now s1 (.LOAD_PAIR_ERROR e), cache2)
    | (.ok pool, cache2) =>
        match pickTwoDistinct rand fuel pool with
        | none =>
            (gameReducer now s1
              (.LOAD_PAIR_ERROR "Not enough GIFs in the pool. Try another theme."), cache2)
        | some (leftGif, rightGif) =>
            (gameReducer now s1 (.LOAD_PAIR_SUCCESS leftGif rightGif pool.length), cache2)

/-- Every cache entry holds at least 2 items, all with a truthy display URL. -/
def CacheGood (cache : PoolCache) : Prop :=
  ∀ kv, kv ∈ cache → 2 ≤ kv.2.length ∧ ∀ g, g ∈ kv.2 → g.displayUrl ≠ ""

/-! ## Helper lemmas about the score table -/

lemma Score.get_bump (sc : Score) (t : VoteType) (sd : Side) (t' : VoteType) (sd' : Side) :
    (sc.bump t sd).get t' sd' =
      sc.get t' sd' + if t = t' ∧ sd = sd' then 1 else 0 := by
  cases t <;> cases sd <;> cases t' <;> cases sd' <;>
    simp [Score.bump, Score.get, SideScore.modify, SideScore.get]

lemma Score.get_undoBump (sc : Score) (t : VoteType) (sd : Side) (t' : VoteType) (sd' : Side) :
    (sc.undoBump t sd).get t' sd' =
      if t = t' ∧ sd = sd' then max 0 (sc.get t' sd' - 1) else sc.get t' sd' := by
  cases t <;> cases sd <;> cases t' <;> cases sd' <;>
    simp [Score.undoBump, Score.get, SideScore.modify, SideScore.get]

lemma Score.undoBump_bump (sc : Score) (t : VoteType) (sd : Side)
    (h : 0 ≤ sc.get t sd) : (sc.bump t sd).undoBump t sd = sc := by
  obtain ⟨⟨a, b⟩, ⟨c, d⟩⟩ := sc
  cases t <;> cases sd <;>
      simp [Score.bump, Score.undoBump, Score.get, SideScore.modify, SideScore.get] at h ⊢ <;>
    omega

/-! ## Claims about single reducer operations -/

/-- Claim C6: for every prior state and every input string, `setTheme`
yields round 1, all four score cells 0, empty history, null GIFs, pool
count 0 and no error; the resulting theme is the trimmed input, or the
default theme `"cats"` when the trimmed input is empty. -/
theorem setTheme_resets (now : Nat) (s : GameState) (x : String) :
    (setTheme now s x).round = 1 ∧
    (setTheme now s x).score =
      { like := { left := 0, right := 0 }, funny := { left := 0, right := 0 } } ∧
    (setTheme now s x).history = [] ∧
    (setTheme now s x).leftGif = none ∧
    (setTheme now s x).rightGif = none ∧
    (setTheme now s x).poolCount = 0 ∧
    (setTheme now s x).error = none ∧
    (setTheme now s x).theme = (if jsTrim x = "" then "cats" else jsTrim x) := by
  refine ⟨rfl, rfl, rfl, rfl, rfl, rfl, rfl, ?_⟩
  simp only [setTheme, gameReducer, jsOr]

/-- Claim C7: `VOTE` is a no-op when either side is unset; otherwise it
increments exactly the `(voteType, winnerSide)` score cell, prepends one
record capturing the current round, theme and the two GIF ids, and
increments the round. -/
theorem vote_spec (now : Nat) (s : GameState) (t : VoteType) (sd : Side) :
    ((s.leftGif = none ∨ s.rightGif = none) → gameReducer now s (.VOTE t sd) = s) ∧
    (∀ l r, s.leftGif = some l → s.rightGif = some r →
      (gameReducer now s (.VOTE t sd)).score.get t sd = s.score.get t sd + 1 ∧
      (∀ t' sd', ¬(t = t' ∧ sd = sd') →
        (gameReducer now s (.VOTE t sd)).score.get t' sd' = s.score.get t' sd') ∧
      (gameReducer now s (.VOTE t sd)).history =
        { round := s.round, theme := s.theme, voteType := t, winnerSide := sd,
          leftId := l.id, rightId := r.id, ts := now } :: s.history ∧
      (gameReducer now s (.VOTE t sd)).round = s.round + 1) := by
  constructor
  · intro h
    cases hl : s.leftGif <;> cases hr : s.rightGif <;>
      simp [gameReducer, hl, hr] <;> simp [hl, hr] at h
  · intro l r hl hr
    refine ⟨?_, ?_, ?_, ?_⟩
    · simp [gameReducer, hl, hr, Score.get_bump]
    · intro t' sd' hne
      simp only [gameReducer, hl, hr, Score.get_bump]
      rw [if_neg hne, add_zero]
    · simp [gameReducer, hl, hr]
    · simp [gameReducer, hl, hr]

/-- Claim C8: `UNDO_LAST_VOTE` is a no-op on empty history and raises no
exception; on non-empty history it removes exactly the most recent record,
decrements the matching score cell by 1 floored at 0, decrements the round
floored at 1, and leaves every other field unchanged. -/
theorem undo_spec (now : Nat) (s : GameState) :
    (s.history = [] → gameReducer now s .UNDO_LAST_VOTE = s) ∧
    (∀ last rest, s.history = last :: rest →
      (gameReducer now s .UNDO_LAST_VOTE).history = rest ∧
      (gameReducer now s .UNDO_LAST_VOTE).score.get last.voteType last.winnerSide =
        max 0 (s.score.get last.voteType last.winnerSide - 1) ∧
      (∀ t' sd', ¬(last.voteType = t' ∧ last.winnerSide = sd') →
        (gameReducer now s .UNDO_LAST_VOTE).score.get t' sd' = s.score.get t' sd') ∧
      (gameReducer now s .UNDO_LAST_VOTE).round = max 1 (s.round - 1) ∧
      (gameReducer now s .UNDO_LAST_VOTE).theme = s.theme ∧
      (gameReducer now s .UNDO_LAST_VOTE).leftGif = s.leftGif ∧
      (gameReducer now s .UNDO_LAST_VOTE).rightGif = s.rightGif ∧
      (gameReducer now s .UNDO_LAST_VOTE).poolCount = s.poolCount ∧
      (gameReducer now s .UNDO_LAST_VOTE).isLoading = s.isLoading ∧
      (gameReducer now s .UNDO_LAST_VOTE).error = s.error) := by
  constructor
  · intro h
    simp [gameReducer, h]
  · intro last rest h
    refine ⟨?_, ?_, ?_, ?_, ?_, ?_, ?_, ?_, ?_, ?_⟩
    · simp [gameReducer, h]
    · simp [gameReducer, h, Score.get_undoBump]
    · intro t' sd' hne
      simp only [gameReducer, h, Score.get_undoBump]
      rw [if_neg hne]
    · simp [gameReducer, h]
    · simp [gameReducer, h]
    · simp [gameReducer, h]
    · simp [gameReducer, h]
    · simp [gameReducer, h]
    · simp [gameReducer, h]
    · simp [gameReducer, h]

/-- Sample GIF for concrete instantiations. -/
def demoLeft : GifItem :=
  { id := "cat-1", title := "leaping cat", displayUrl := "https://img.test/cat1.gif" }

/-- Second sample GIF for concrete instantiations. -/
def demoRight : GifItem :=
  { id := "cat-2", title := "sleepy cat", displayUrl := "https://img.test/cat2.gif" }

/-- A loaded state: the initial state with both GIFs present. -/
def demoReady : GameState :=
  { initialState with leftGif := some demoLeft, rightGif := some demoRight }

/-- Witness for `vote_spec`: voting on a concrete loaded state prepends the
expected record and advances the round. -/
theorem vote_spec_witness :
    (gameReducer 7 demoReady (.VOTE .like .left)).history =
      { round := demoReady.round, theme := demoReady.theme, voteType := .like,
        winnerSide := .left, leftId := demoLeft.id, rightId := demoRight.id,
        ts := 7 } :: demoReady.history ∧
    (gameReducer 7 demoReady (.VOTE .like .left)).round = demoReady.round + 1 :=
  ⟨((vote_spec 7 demoReady .like .left).2 demoLeft demoRight rfl rfl).2.2.1,
   ((vote_spec 7 demoReady .like .left).2 demoLeft demoRight rfl rfl).2.2.2⟩

/-- Witness for `undo_spec`: undo on the initial state (empty history) is a
no-op. -/
theorem undo_spec_witness :
    gameReducer 3 initialState .UNDO_LAST_VOTE = initialState :=
  (undo_spec 3 initialState).1 rfl

/-! ## Pairing -/

lemma redraw_ne (rand : Nat → Nat) (len i : Nat) :
    ∀ k fuel j, redraw rand len i k fuel = some j → j ≠ i := by
  intro k fuel
  induction fuel generalizing k with
  | zero => intro j h; simp [redraw] at h
  | succ n ih =>
      intro j h
      simp only [redraw] at h
      split at h
      · exact ih (k + 1) j h
      · rename_i hne
        cases h
        exact hne

/-- Claim C5: `pickTwoDistinct` returns `none` on every list of length 0
or 1, and whenever it returns a pair, the two elements come from two
distinct indices of the input list. -/
theorem pickTwoDistinct_spec {α : Type} (rand : Nat → Nat) (fuel : Nat) (arr : List α) :
    (arr.length < 2 → pickTwoDistinct rand fuel arr = none) ∧
    (∀ a b, pickTwoDistinct rand fuel arr = some (a, b) →
      ∃ i j : Fin arr.length, i ≠ j ∧ arr.get i = a ∧ arr.get j = b) := by
  constructor
  · intro h
    simp [pickTwoDistinct, h]
  · intro a b hab
    by_cases hlen : arr.length < 2
    · simp [pickTwoDistinct, hlen] at hab
    · simp only [pickTwoDistinct] at hab
      rw [if_neg hlen] at hab
      split at hab
      · exact Option.noConfusion hab
      · rename_i j hred
        split at hab
        · rename_i a0 b0 hga hgb
          rw [List.get?_eq_some] at hga hgb
          obtain ⟨hia, hga⟩ := hga
          obtain ⟨hjb, hgb⟩ := hgb
          injection hab with hab
          rw [Prod.mk.injEq] at hab
          obtain ⟨rfl, rfl⟩ := hab
          refine ⟨⟨_, hia⟩, ⟨_, hjb⟩, ?_, hga, hgb⟩
          have hne := redraw_ne rand arr.length _ 1 fuel _ hred
          exact fun hEq => hne (congrArg Fin.val hEq).symm
        · exact Option.noConfusion hab

/-- Witness for `pickTwoDistinct_spec`: the empty list yields `none`. -/
theorem pickTwoDistinct_spec_witness :
    pickTwoDistinct (fun k => k) 5 ([] : List Nat) = none :=
  (pickTwoDistinct_spec (fun k => k) 5 ([] : List Nat)).1 (by decide)

/-! ## Vote followed by undo -/

/-- Counterexample to claim C2 as stated: on a state whose voted score cell
is negative (the TypeScript field is an unconstrained `number`), the
`Math.max(0, …)` clamp in `UNDO_LAST_VOTE` lands on 0 instead of the
pre-vote value, so vote-then-undo does not restore the score even though
both GIFs are present. -/
theorem vote_undo_counterexample :
    ({ theme := "cats", round := 1, leftGif := some demoLeft,
       rightGif := some demoRight, poolCount := 0,
       score := { like := { left := -1, right := 0 },
                  funny := { left := 0, right := 0 } },
       history := [], isLoading := false, error := none } : GameState).leftGif ≠ none ∧
    ({ theme := "cats", round := 1, leftGif := some demoLeft,
       rightGif := some demoRight, poolCount := 0,
       score := { like := { left := -1, right := 0 },
                  funny := { left := 0, right := 0 } },
       history := [], isLoading := false, error := none } : GameState).rightGif ≠ none ∧
    (gameReducer 0
        (gameReducer 0
          { theme := "cats", round := 1, leftGif := some demoLeft,
            rightGif := some demoRight, poolCount := 0,
            score := { like := { left := -1, right := 0 },
                       funny := { left := 0, right := 0 } },
            history := [], isLoading := false, error := none }
          (.VOTE .like .left))
        .UNDO_LAST_VOTE).score ≠
      ({ like := { left := -1, right := 0 },
         funny := { left := 0, right := 0 } } : Score) := by
  refine ⟨by decide, by decide, ?_⟩
  decide

/-- Claim C2 (amended): on any state where both GIFs are present, the voted
score cell is non-negative, and the round is at least 1 — true of every
reachable state — a `VOTE` followed by `UNDO_LAST_VOTE` restores the whole
state, in particular all four score cells, the round, and the history. -/
theorem vote_undo_inverse (now1 now2 : Nat) (s : GameState) (t : VoteType) (sd : Side)
    (hl : s.leftGif ≠ none) (hr : s.rightGif ≠ none)
    (hcell : 0 ≤ s.score.get t sd) (hround : 1 ≤ s.round) :
    gameReducer now2 (gameReducer now1 s (.VOTE t sd)) .UNDO_LAST_VOTE = s := by
  obtain ⟨l, hl⟩ := Option.ne_none_iff_exists'.mp hl
  obtain ⟨r, hr⟩ := Option.ne_none_iff_exists'.mp hr
  have hsc : (s.score.bump t sd).undoBump t sd = s.score :=
    Score.undoBump_bump s.score t sd hcell
  have hrd : max 1 (s.round + 1 - 1) = s.round := by omega
  cases s with
  | mk theme round leftGif rightGif poolCount score history isLoading error =>
      simp only at hl hr
      simp only [gameReducer, hl, hr]
      simp_all [gameReducer]

/-- Witness for `vote_undo_inverse`: vote then undo on a concrete loaded
state is the identity. -/
theorem vote_undo_inverse_witness :
    gameReducer 9 (gameReducer 4 demoReady (.VOTE .funny .right)) .UNDO_LAST_VOTE =
      demoReady :=
  vote_undo_inverse 4 9 demoReady .funny .right (by decide) (by decide)
    (by decide) (by decide)

/-! ## Reachability invariants -/

lemma countVotes_cons (r : VoteRecord) (h : List VoteRecord) (t : VoteType) (sd : Side) :
    countVotes (r :: h) t sd =
      countVotes h t sd + if r.voteType = t ∧ r.winnerSide = sd then 1 else 0 := by
  by_cases hm : r.voteType = t ∧ r.winnerSide = sd <;>
    simp [countVotes, List.filter_cons, hm]

lemma scoreInv_gameReducer (now : Nat) (s : GameState) (a : Action)
    (h : ScoreInv s) : ScoreInv (gameReducer now s a) := by
  cases a with
  | SET_THEME t =>
      intro t' sd'
      cases t' <;> cases sd' <;>
        simp [gameReducer, Score.get, SideScore.get, countVotes]
  | LOAD_PAIR_START =>
      intro t' sd'
      simpa [gameReducer] using h t' sd'
  | LOAD_PAIR_SUCCESS l r pc =>
      intro t' sd'
      simpa [gameReducer] using h t' sd'
  | LOAD_PAIR_ERROR e =>
      intro t' sd'
      simpa [gameReducer] using h t' sd'
  | RESET_RUN =>
      intro t' sd'
      cases t' <;> cases sd' <;>
        simp [gameReducer, Score.get, SideScore.get, countVotes]
  | VOTE t sd =>
      cases hl : s.leftGif with
      | none =>
          intro t' sd'
          simpa [gameReducer, hl] using h t' sd'
      | some l =>
          cases hr : s.rightGif with
          | none =>
              intro t' sd'
              simpa [gameReducer, hl, hr] using h t' sd'
          | some r =>
              intro t' sd'
              simp only [gameReducer, hl, hr]
              rw [Score.get_bump, countVotes_cons, h t' sd']
              by_cases hm : t = t' ∧ sd = sd'
              · obtain ⟨rfl, rfl⟩ := hm
                simp
              · rw [if_neg hm, if_neg (by simpa using hm)]
                simp
  | UNDO_LAST_VOTE =>
      cases hh : s.history with
      | nil =>
          intro t' sd'
          simpa [gameReducer, hh] using h t' sd'
      | cons last rest =>
          intro t' sd'
          have hcell := h t' sd'
          rw [hh, countVotes_cons] at hcell
          simp only [gameReducer, hh]
          rw [Score.get_undoBump]
          by_cases hm : last.voteType = t' ∧ last.winnerSide = sd'
          · rw [if_pos hm, hcell, if_pos hm]
            push_cast
            omega
          · rw [if_neg hm, hcell, if_neg hm]
            simp

lemma scoreInv_applyTrace (s : GameState) (tr : List (Nat × Action))
    (h : ScoreInv s) : ScoreInv (applyTrace s tr) := by
  induction tr generalizing s with
  | nil => exact h
  | cons p rest ih => exact ih _ (scoreInv_gameReducer p.1 s p.2 h)

lemma scoreInv_initLike (s : GameState) (h : InitLike s) : ScoreInv s := by
  obtain rfl | ⟨now, s0, t, rfl⟩ | ⟨now, s0, rfl⟩ := h
  · intro t' sd'
    cases t' <;> cases sd' <;>
      simp [initialState, Score.get, SideScore.get, countVotes]
  · intro t' sd'
    cases t' <;> cases sd' <;>
      simp [gameReducer, Score.get, SideScore.get, countVotes]
  · intro t' sd'
    cases t' <;> cases sd' <;>
      simp [gameReducer, Score.get, SideScore.get, countVotes]

/-- Claim C1: in every state reachable from the initial state, or from any
state just produced by `SET_THEME` or `RESET_RUN`, each score cell equals
the number of history records with the matching vote type and winner side;
in particular every score cell is non-negative. -/
theorem score_counts_history (s0 : GameState) (h : InitLike s0)
    (tr : List (Nat × Action)) (t : VoteType) (sd : Side) :
    (applyTrace s0 tr).score.get t sd =
      (countVotes (applyTrace s0 tr).history t sd : Int) ∧
    0 ≤ (applyTrace s0 tr).score.get t sd := by
  have hinv := scoreInv_applyTrace s0 tr (scoreInv_initLike s0 h)
  refine ⟨hinv t sd, ?_⟩
  rw [hinv t sd]
  exact Int.natCast_nonneg _

/-- A short concrete run: a pair loads, then a like-left vote is cast. -/
def demoTrace : List (Nat × Action) :=
  [(0, .LOAD_PAIR_SUCCESS demoLeft demoRight 2), (1, .VOTE .like .left)]

/-- Witness for `score_counts_history`: after the demo trace the like/left
cell counts the single matching record. -/
theorem score_counts_history_witness :
    InitLike initialState ∧
    (applyTrace initialState demoTrace).score.get .like .left =
      (countVotes (applyTrace initialState demoTrace).history .like .left : Int) :=
  ⟨Or.inl rfl,
   (score_counts_history initialState (Or.inl rfl) demoTrace .like .left).1⟩

lemma roundInv_gameReducer (now : Nat) (s : GameState) (a : Action)
    (h : RoundInv s) : RoundInv (gameReducer now s a) := by
  obtain ⟨h1, h2⟩ := h
  cases a with
  | SET_THEME t =>
      exact ⟨by simp [gameReducer], by simp [gameReducer, roundsFrom]⟩
  | LOAD_PAIR_START =>
      exact ⟨by simpa [gameReducer] using h1, by simpa [gameReducer] using h2⟩
  | LOAD_PAIR_SUCCESS l r pc =>
      exact ⟨by simpa [gameReducer] using h1, by simpa [gameReducer] using h2⟩
  | LOAD_PAIR_ERROR e =>
      exact ⟨by simpa [gameReducer] using h1, by simpa [gameReducer] using h2⟩
  | RESET_RUN =>
      exact ⟨by simp [gameReducer], by simp [gameReducer, roundsFrom]⟩
  | VOTE t sd =>
      cases hl : s.leftGif with
      | none =>
          exact ⟨by simpa [gameReducer, hl] using h1, by simpa [gameReducer, hl] using h2⟩
      | some l =>
          cases hr : s.rightGif with
          | none =>
              exact ⟨by simpa [gameReducer, hl, hr] using h1,
                     by simpa [gameReducer, hl, hr] using h2⟩
          | some r =>
              constructor
              · simp only [gameReducer, hl, hr, List.length_cons]
                push_cast
                omega
              · simp only [gameReducer, hl, hr, roundsFrom, List.length_cons]
                constructor
                · push_cast
                  omega
                · have : ((s.history.length + 1 : Nat) : Int) - 1 =
                      (s.history.length : Int) := by push_cast; omega
                  rw [this]
                  exact h2
  | UNDO_LAST_VOTE =>
      cases hh : s.history with
      | nil =>
          exact ⟨by simpa [gameReducer, hh, hh ▸ h1] using (hh ▸ h1),
                 by simpa [gameReducer, hh] using h2⟩
      | cons last rest =>
          rw [hh] at h1 h2
          obtain ⟨hlr, hrest⟩ := h2
          constructor
          · simp only [gameReducer, hh]
            simp only [List.length_cons] at h1
            push_cast at h1 ⊢
            omega

          · simp only [gameReducer, hh]
            have : ((List.length rest : Nat) : Int) =
                (((last :: rest).length : Nat) : Int) - 1 := by
              simp only [List.length_cons]
              push_cast
              omega
            rw [this]
            exact hrest

lemma roundInv_applyTrace (s : GameState) (tr : List (Nat × Action))
    (h : RoundInv s) : RoundInv (applyTrace s tr) := by
  induction tr generalizing s with
  | nil => exact h
  | cons p rest ih => exact ih _ (roundInv_gameReducer p.1 s p.2 h)

lemma roundInv_initialState : RoundInv initialState :=
  ⟨by simp [initialState], by simp [initialState, roundsFrom]⟩

lemma roundsFrom_get (h : List VoteRecord) (n : Int) (hr : roundsFrom h n)
    (i : Fin h.length) : (h.get i).round = n - i.val := by
  induction h generalizing n with
  | nil => exact absurd i.isLt (by simp)
  | cons r rest ih =>
      obtain ⟨h1, h2⟩ := hr
      cases i using Fin.cases with
      | zero => simpa using h1
      | succ i0 =>
          have hstep := ih (n - 1) h2 i0
          have hg : (r :: rest).get i0.succ = rest.get i0 := rfl
          rw [hg, hstep]
          simp only [Fin.val_succ]
          push_cast
          omega

/-- Claim C10: in every state reachable from the initial state, the round is
one more than the history length (hence at least 1), the history records
read newest-first carry rounds `length, length - 1, …, 1`, and the
`Math.max` floors in `UNDO_LAST_VOTE` never actually clamp. -/
theorem round_history_inv (tr : List (Nat × Action)) :
    (applyTrace initialState tr).round =
      ((applyTrace initialState tr).history.length : Int) + 1 ∧
    1 ≤ (applyTrace initialState tr).round ∧
    (∀ (i : Nat) (hi : i < (applyTrace initialState tr).history.length),
      ((applyTrace initialState tr).history.get ⟨i, hi⟩).round =
        (((applyTrace initialState tr).history.length - i : Nat) : Int)) ∧
    (∀ last rest, (applyTrace initialState tr).history = last :: rest →
      max 1 ((applyTrace initialState tr).round - 1) =
        (applyTrace initialState tr).round - 1 ∧
      max 0 ((applyTrace initialState tr).score.get last.voteType last.winnerSide - 1) =
        (applyTrace initialState tr).score.get last.voteType last.winnerSide - 1) := by
  have hR := roundInv_applyTrace initialState tr roundInv_initialState
  have hS := scoreInv_applyTrace initialState tr (scoreInv_initLike initialState (Or.inl rfl))
  obtain ⟨h1, h2⟩ := hR
  refine ⟨h1, by omega, ?_, ?_⟩
  · intro i hi
    have hval : ((applyTrace initialState tr).history.get ⟨i, hi⟩).round =
        ((applyTrace initialState tr).history.length : Int) - (i : Int) :=
      roundsFrom_get _ _ h2 ⟨i, hi⟩
    rw [hval]
    omega
  · intro last rest hh
    have hlen : (applyTrace initialState tr).history.length = rest.length + 1 := by
      rw [hh]; simp
    constructor
    · rw [h1, hlen]
      push_cast
      omega
    · have hcell := hS last.voteType last.winnerSide
      rw [hh, countVotes_cons, if_pos ⟨rfl, rfl⟩] at hcell
      rw [hcell]
      push_cast
      omega

/-- Witness for `round_history_inv`: after the demo trace — one loaded pair
and one vote — the round floor in undo does not clamp. -/
theorem round_history_inv_witness :
    max 1 ((applyTrace initialState demoTrace).round - 1) =
      (applyTrace initialState demoTrace).round - 1 :=
  ((round_history_inv demoTrace).2.2.2
      { round := 1, theme := "cats", voteType := .like, winnerSide := .left,
        leftId := "cat-1", rightId := "cat-2", ts := 1 }
      [] (by decide)).1

/-! ## Pool cache and round loading -/

lemma fetchPool_error_ne (apiKey : String) (uuids : Nat → String)
    (outcome : FetchOutcome) (theme : String) (e : String)
    (h : fetchPool apiKey uuids outcome theme = .error e) : e ≠ "" := by
  unfold fetchPool at h
  split at h
  · cases h
    decide
  · split at h
    · cases h
      intro h0
      have hl := congrArg String.length h0
      have h13 : ("GIPHY error: ").length = 13 := rfl
      simp only [String.length_append] at hl
      rw [h13] at hl
      simp at hl
    · simp only [] at h
      split at h
      · cases h
        decide
      · cases h

lemma fetchPool_ok_len (apiKey : String) (uuids : Nat → String)
    (outcome : FetchOutcome) (theme : String) (l : List GifItem)
    (h : fetchPool apiKey uuids outcome theme = .ok l) : 2 ≤ l.length := by
  unfold fetchPool at h
  split at h
  · cases h
  · split at h
    · cases h
    · simp only [] at h
      split at h
      · cases h
      · rename_i hlen
        cases h
        omega

lemma fetchPool_ok_urls (apiKey : String) (uuids : Nat → String)
    (outcome : FetchOutcome) (theme : String) (l : List GifItem)
    (h : fetchPool apiKey uuids outcome theme = .ok l) :
    ∀ g, g ∈ l → g.displayUrl ≠ "" := by
  unfold fetchPool at h
  split at h
  · cases h
  · split at h
    · cases h
    · simp only [] at h
      split at h
      · cases h
      · cases h
        intro g hg
        have := List.of_mem_filter hg
        simpa using this

lemma cacheGet_cacheSet_self (cache : PoolCache) (k : String) (v : List GifItem) :
    cacheGet (cacheSet cache k v) k = some v := by
  induction cache with
  | nil => simp [cacheSet, cacheGet]
  | cons kv rest ih =>
      obtain ⟨k1, v1⟩ := kv
      by_cases hk : k1 = k
      · simp [cacheSet, cacheGet, hk]
      · simp [cacheSet, cacheGet, hk, ih]

lemma cacheGet_cacheSet_ne (cache : PoolCache) (k k' : String) (v : List GifItem)
    (hne : k ≠ k') : cacheGet (cacheSet cache k v) k' = cacheGet cache k' := by
  induction cache with
  | nil => simp [cacheSet, cacheGet, hne]
  | cons kv rest ih =>
      obtain ⟨k1, v1⟩ := kv
      by_cases hk : k1 = k
      · subst hk
        simp [cacheSet, cacheGet, hne]
      · simp [cacheSet, cacheGet, hk, ih]

lemma cacheGet_mem (cache : PoolCache) (k : String) (v : List GifItem)
    (h : cacheGet cache k = some v) : (k, v) ∈ cache := by
  induction cache with
  | nil => cases h
  | cons kv rest ih =>
      obtain ⟨k1, v1⟩ := kv
      simp only [cacheGet] at h
      split at h
      · rename_i hk
        cases h
        subst hk
        exact List.mem_cons_self _ _
      · exact List.mem_cons_of_mem _ (ih h)

lemma cacheSet_mem (cache : PoolCache) (k : String) (v : List GifItem)
    (kv' : String × List GifItem) (h : kv' ∈ cacheSet cache k v) :
    kv' = (k, v) ∨ kv' ∈ cache := by
  induction cache with
  | nil => simpa [cacheSet] using h
  | cons kv rest ih =>
      obtain ⟨k1, v1⟩ := kv
      simp only [cacheSet] at h
      split at h
      · rcases List.mem_cons.mp h with h0 | h0
        · exact Or.inl h0
        · exact Or.inr (List.mem_cons_of_mem _ h0)
      · rcases List.mem_cons.mp h with h0 | h0
        · exact Or.inr (h0 ▸ List.mem_cons_self _ _)
        · rcases ih h0 with h1 | h1
          · exact Or.inl h1
          · exact Or.inr (List.mem_cons_of_mem _ h1)

lemma fetchAndStore_error (cache : PoolCache) (key apiKey : String)
    (uuids : Nat → String) (outcome : FetchOutcome) (theme : String)
    (e : String) (cache2 : PoolCache)
    (h : fetchAndStore cache key apiKey uuids outcome theme = (.error e, cache2)) :
    fetchPool apiKey uuids outcome theme = .error e ∧ cache2 = cache := by
  unfold fetchAndStore at h
  split at h
  · rename_i e0 he0
    rw [Prod.mk.injEq] at h
    obtain ⟨h1, h2⟩ := h
    cases h1
    exact ⟨he0, h2.symm⟩
  · rename_i fresh hfresh
    rw [Prod.mk.injEq] at h
    obtain ⟨h1, h2⟩ := h
    cases h1

lemma fetchAndStore_ok (cache : PoolCache) (key apiKey : String)
    (uuids : Nat → String) (outcome : FetchOutcome) (theme : String)
    (pool : List GifItem) (cache2 : PoolCache)
    (h : fetchAndStore cache key apiKey uuids outcome theme = (.ok pool, cache2)) :
    fetchPool apiKey uuids outcome theme = .ok pool ∧
      cache2 = cacheSet cache key pool := by
  unfold fetchAndStore at h
  split at h
  · rename_i e0 he0
    rw [Prod.mk.injEq] at h
    obtain ⟨h1, h2⟩ := h
    cases h1
  · rename_i fresh hfresh
    rw [Prod.mk.injEq] at h
    obtain ⟨h1, h2⟩ := h
    cases h1
    exact ⟨hfresh, h2.symm⟩

lemma ensurePool_error (cache : PoolCache) (rating apiKey : String)
    (uuids : Nat → String) (outcome : FetchOutcome) (theme : String)
    (e : String) (cache2 : PoolCache)
    (h : ensurePool cache rating apiKey uuids outcome theme = (.error e, cache2)) :
    fetchPool apiKey uuids outcome theme = .error e ∧ cache2 = cache := by
  unfold ensurePool at h
  simp only [] at h
  split at h
  · rename_i cached hc
    split at h
    · rw [Prod.mk.injEq] at h
      obtain ⟨h1, h2⟩ := h
      cases h1
    · exact fetchAndStore_error _ _ _ _ _ _ _ _ h
  · exact fetchAndStore_error _ _ _ _ _ _ _ _ h

lemma ensurePool_ok_get (cache : PoolCache) (rating apiKey : String)
    (uuids : Nat → String) (outcome : FetchOutcome) (theme : String)
    (pool : List GifItem) (cache2 : PoolCache)
    (h : ensurePool cache rating apiKey uuids outcome theme = (.ok pool, cache2)) :
    2 ≤ pool.length ∧ cacheGet cache2 (poolKey theme rating) = some pool := by
  unfold ensurePool at h
  simp only [] at h
  split at h
  · rename_i cached hc
    split at h
    · rename_i hlen
      rw [Prod.mk.injEq] at h
      obtain ⟨h1, h2⟩ := h
      cases h1
      subst h2
      exact ⟨hlen, hc⟩
    · obtain ⟨hf, hc2⟩ := fetchAndStore_ok _ _ _ _ _ _ _ _ h
      subst hc2
      exact ⟨fetchPool_ok_len _ _ _ _ _ hf, cacheGet_cacheSet_self _ _ _⟩
  · obtain ⟨hf, hc2⟩ := fetchAndStore_ok _ _ _ _ _ _ _ _ h
    subst hc2
    exact ⟨fetchPool_ok_len _ _ _ _ _ hf, cacheGet_cacheSet_self _ _ _⟩

/-- Claim C4: once one `ensurePool` call has succeeded, a second call with
the same normalized key performs no external fetch: whatever the second
collaborator outcome or uuid stream would be, the call just returns the
cached list and leaves the cache unmodified. -/
theorem ensurePool_fetch_once (cache : PoolCache) (rating apiKey : String)
    (uuids1 uuids2 : Nat → String) (outcome1 outcome2 : FetchOutcome)
    (theme1 theme2 : String) (pool : List GifItem) (cache2 : PoolCache)
    (hkey : poolKey theme1 rating = poolKey theme2 rating)
    (h1 : ensurePool cache rating apiKey uuids1 outcome1 theme1 = (.ok pool, cache2)) :
    ensurePool cache2 rating apiKey uuids2 outcome2 theme2 = (.ok pool, cache2) := by
  obtain ⟨hlen, hget⟩ := ensurePool_ok_get _ _ _ _ _ _ _ _ h1
  rw [hkey] at hget
  unfold ensurePool
  simp only [hget]
  rw [if_pos hlen]

/-- Witness for `ensurePool_fetch_once`: a concrete first fetch of two GIFs
caches them and the second call hits the cache even though the second
collaborator outcome is an HTTP failure. -/
theorem ensurePool_fetch_once_witness :
    ensurePool (cacheSet [] "cats|pg" [demoLeft, demoRight]) "pg" "key"
        (fun _ => "u2") (.httpFail 500 "oops") "Cats " =
      (.ok [demoLeft, demoRight], cacheSet [] "cats|pg" [demoLeft, demoRight]) :=
  ensurePool_fetch_once [] "pg" "key" (fun _ => "u1") (fun _ => "u2")
    (.httpOk [⟨some "cat-1", some "leaping cat", "https://img.test/cat1.gif", "", ""⟩,
              ⟨some "cat-2", some "sleepy cat", "https://img.test/cat2.gif", "", ""⟩])
    (.httpFail 500 "oops") "cats" "Cats " [demoLeft, demoRight]
    (cacheSet [] "cats|pg" [demoLeft, demoRight]) (by rfl) (by rfl)

lemma ensurePool_snd_cases (cache : PoolCache) (rating apiKey : String)
    (uuids : Nat → String) (outcome : FetchOutcome) (theme : String) :
    (ensurePool cache rating apiKey uuids outcome theme).2 = cache ∨
    ∃ fresh, fetchPool apiKey uuids outcome theme = .ok fresh ∧
      (ensurePool cache rating apiKey uuids outcome theme).2 =
        cacheSet cache (poolKey theme rating) fresh ∧
      (∀ cached, cacheGet cache (poolKey theme rating) = some cached →
        cached.length < 2) := by
  unfold ensurePool
  simp only []
  split
  · rename_i cached hc
    split
    · exact Or.inl rfl
    · rename_i hlen
      unfold fetchAndStore
      split
      · exact Or.inl rfl
      · rename_i fresh hfresh
        refine Or.inr ⟨fresh, hfresh, rfl, ?_⟩
        intro cached0 hc0
        rw [hc] at hc0
        cases hc0
        omega
  · rename_i hc
    unfold fetchAndStore
    split
    · exact Or.inl rfl
    · rename_i fresh hfresh
      refine Or.inr ⟨fresh, hfresh, rfl, ?_⟩
      intro cached0 hc0
      rw [hc] at hc0
      cases hc0

/-- Claim C9: the pool cache is mutated only on success — on any failure the
cache is exactly as before; starting from a good cache (every entry at least
2 items, all with a truthy display URL — as the empty initial cache is),
every entry after the call is still good, and every existing entry is still
present unchanged: the call at most inserts a new key. -/
theorem ensurePool_cache_effects (cache : PoolCache) (rating apiKey : String)
    (uuids : Nat → String) (outcome : FetchOutcome) (theme : String) :
    (∀ e cache2, ensurePool cache rating apiKey uuids outcome theme = (.error e, cache2) →
      cache2 = cache) ∧
    CacheGood [] ∧
    (CacheGood cache →
      CacheGood (ensurePool cache rating apiKey uuids outcome theme).2 ∧
      ∀ k v, cacheGet cache k = some v →
        cacheGet (ensurePool cache rating apiKey uuids outcome theme).2 k = some v) := by
  refine ⟨?_, ?_, ?_⟩
  · intro e cache2 h
    exact (ensurePool_error _ _ _ _ _ _ _ _ h).2
  · intro kv hkv
    cases hkv
  · intro hgood
    rcases ensurePool_snd_cases cache rating apiKey uuids outcome theme with
      hsame | ⟨fresh, hfresh, hset, hsmall⟩
    · rw [hsame]
      exact ⟨hgood, fun k v hv => hv⟩
    · rw [hset]
      constructor
      · intro kv hkv
        rcases cacheSet_mem _ _ _ _ hkv with h0 | h0
        · subst h0
          exact ⟨fetchPool_ok_len _ _ _ _ _ hfresh,
                 fetchPool_ok_urls _ _ _ _ _ hfresh⟩
        · exact hgood _ h0
      · intro k v hv
        by_cases hk : poolKey theme rating = k
        · subst hk
          have hsmall2 := hsmall v hv
          have hmem := cacheGet_mem _ _ _ hv
          have h2 := (hgood _ hmem).1
          dsimp only at h2
          omega
        · rw [cacheGet_cacheSet_ne _ _ _ _ hk]
          exact hv

/-- Witness for `ensurePool_cache_effects`: with a good concrete cache the
call preserves every existing entry. -/
theorem ensurePool_cache_effects_witness :
    cacheGet (ensurePool [(poolKey "cats" "pg", [demoLeft, demoRight])] "pg" ""
        (fun _ => "u") (.httpOk []) "dogs").2 (poolKey "cats" "pg") =
      some [demoLeft, demoRight] :=
  ((ensurePool_cache_effects [(poolKey "cats" "pg", [demoLeft, demoRight])] "pg" ""
      (fun _ => "u") (.httpOk []) "dogs").2.2 (by
        intro kv hkv
        rcases List.mem_singleton.mp hkv with rfl
        exact ⟨by decide, by decide⟩)).2
    (poolKey "cats" "pg") [demoLeft, demoRight] (by rfl)

lemma loadNextPair_cases (now : Nat) (rating apiKey : String) (uuids : Nat → String)
    (outcome : FetchOutcome) (rand : Nat → Nat) (fuel : Nat)
    (state : GameState) (cache : PoolCache) :
    (∃ e c2, e ≠ "" ∧
      loadNextPair now rating apiKey uuids outcome rand fuel state cache =
        (gameReducer now (gameReducer now state .LOAD_PAIR_START) (.LOAD_PAIR_ERROR e), c2)) ∨
    (∃ l r pc c2,
      loadNextPair now rating apiKey uuids outcome rand fuel state cache =
        (gameReducer now (gameReducer now state .LOAD_PAIR_START)
          (.LOAD_PAIR_SUCCESS l r pc), c2)) := by
  unfold loadNextPair
  simp only []
  split
  · exact Or.inl ⟨_, _, by decide, rfl⟩
  · split
    · rename_i e c2 heq
      refine Or.inl ⟨e, c2, ?_, rfl⟩
      exact fetchPool_error_ne _ _ _ _ _ (ensurePool_error _ _ _ _ _ _ _ _ heq).1
    · rename_i pool c2 heq
      split
      · exact Or.inl ⟨_, _, by decide, rfl⟩
      · rename_i pr l r hpick
        exact Or.inr ⟨l, r, pool.length, c2, rfl⟩

/-- Claim C3: whenever `loadNextPair` fails — for any of its failure modes —
the resulting state carries a non-empty error message and a cleared loading
flag, while the GIF pair, score, history and round are exactly those of the
pre-failure state. -/
theorem loadNextPair_error_frame (now : Nat) (rating apiKey : String)
    (uuids : Nat → String) (outcome : FetchOutcome) (rand : Nat → Nat) (fuel : Nat)
    (state : GameState) (cache : PoolCache) (e : String)
    (h : (loadNextPair now rating apiKey uuids outcome rand fuel state cache).1.error =
      some e) :
    e ≠ "" ∧
    (loadNextPair now rating apiKey uuids outcome rand fuel state cache).1.isLoading = false ∧
    (loadNextPair now rating apiKey uuids outcome rand fuel state cache).1.leftGif =
      state.leftGif ∧
    (loadNextPair now rating apiKey uuids outcome rand fuel state cache).1.rightGif =
      state.rightGif ∧
    (loadNextPair now rating apiKey uuids outcome rand fuel state cache).1.score =
      state.score ∧
    (loadNextPair now rating apiKey uuids outcome rand fuel state cache).1.history =
      state.history ∧
    (loadNextPair now rating apiKey uuids outcome rand fuel state cache).1.round =
      state.round := by
  rcases loadNextPair_cases now rating apiKey uuids outcome rand fuel state cache with
    ⟨e0, c2, hne, heq⟩ | ⟨l, r, pc, c2, heq⟩
  · rw [heq] at h
    simp only [gameReducer] at h
    cases h
    rw [heq]
    exact ⟨hne, rfl, rfl, rfl, rfl, rfl, rfl⟩
  · rw [heq] at h
    simp only [gameReducer] at h
    cases h

/-- Witness for `loadNextPair_error_frame`: with no API key configured the
load fails and leaves the board untouched. -/
theorem loadNextPair_error_frame_witness :
    (loadNextPair 0 "pg" "" (fun _ => "u") (.httpOk []) (fun _ => 0) 1
        initialState []).1.leftGif = initialState.leftGif :=
  (loadNextPair_error_frame 0 "pg" "" (fun _ => "u") (.httpOk []) (fun _ => 0) 1
      initialState []
      "Missing GIPHY API key. Set VITE_GIPHY_API_KEY or REACT_APP_GIPHY_API_KEY."
      (by rfl)).2.2.1
